import Mathlib

/-!
Verification of the roll prize-wheel engine.

The TypeScript sources are embedded shallowly:
- numbers become rationals;
- each call to Math.random() becomes an explicit parameter u with 0 ≤ u < 1;
- thrown exceptions become Except values;
- console warnings become a boolean component of the result;
- the DOM element held by the animation controller becomes a boolean flag
  plus an optional last-applied surface rotation.
-/

namespace Roll

/-- One wheel entry, mirroring the SlotItem interface of the source. -/
structure SlotItem where
  id : String
  type : String
  text : String
  imageUrl : Option String := none
  weight : ℚ
  isDefault : Bool
deriving DecidableEq, Repr

/-- One history record, mirroring the HistoryRecord interface of the source. -/
structure HistoryRecord where
  id : String
  itemId : String
  timestamp : String
  result : String
deriving DecidableEq, Repr

/-- Errors thrown by LotteryEngine.weightedRandomSelect: the empty-pool throw
and the non-positive-total-weight throw. -/
inductive LotteryError where
  | emptyPool : LotteryError
  | nonPositiveTotalWeight : LotteryError
deriving DecidableEq, Repr

/-- Total weight of a pool, as computed by the reduce call in
LotteryEngine.weightedRandomSelect: items.reduce((sum, item) => sum + item.weight, 0). -/
def totalWeight (items : List SlotItem) : ℚ :=
  items.foldl (fun sum item => sum + item.weight) 0

/-- The selection loop of LotteryEngine.weightedRandomSelect: walk the pool,
subtracting each weight from the running remainder, and return the first item
at which the remainder drops to ≤ 0; none when the loop falls through. -/
def selectLoop (random : ℚ) : List SlotItem → Option SlotItem
  | [] => none
  | item :: rest =>
    if random - item.weight ≤ 0 then some item else selectLoop (random - item.weight) rest

/-- LotteryEngine.weightedRandomSelect with the Math.random() result u made
explicit: throws on an empty pool, throws on total weight ≤ 0, otherwise runs
the subtraction loop on u * totalWeight and falls back to the last item when
the loop falls through. -/
def weightedRandomSelect (u : ℚ) (items : List SlotItem) : Except LotteryError SlotItem :=
  match items with
  | [] => .error .emptyPool
  | item :: rest =>
    if totalWeight (item :: rest) ≤ 0 then
      .error .nonPositiveTotalWeight
    else
      match selectLoop (u * totalWeight (item :: rest)) (item :: rest) with
      | some chosen => .ok chosen
      | none => .ok ((item :: rest).getLast (List.cons_ne_nil item rest))

/-- LotteryEngine.antiRepeatRandomSelect with the Math.random() result u made
explicit: with a pool no larger than avoidRecentCount it draws from the whole
pool; otherwise it filters out the first avoidRecentCount recent ids and draws
from the filtered pool, falling back to the whole pool if the filter emptied it. -/
def antiRepeatRandomSelect (u : ℚ) (items : List SlotItem)
    (recentResults : List String) (avoidRecentCount : ℕ) : Except LotteryError SlotItem :=
  match items with
  | [] => .error .emptyPool
  | _ :: _ =>
    if items.length ≤ avoidRecentCount then
      weightedRandomSelect u items
    else
      let recentIds := recentResults.take avoidRecentCount
      let availableItems := items.filter (fun item => !(recentIds.contains item.id))
      let targetItems := if 0 < availableItems.length then availableItems else items
      weightedRandomSelect u targetItems

/-- LotteryEngine.calculateRotationAngle with the Math.random() result u made
explicit. Returns the angle together with a flag recording whether the
entry-not-found warning was logged. -/
def calculateRotationAngle (u : ℚ) (items : List SlotItem) (selectedItem : SlotItem)
    (baseRotations : ℚ) : ℚ × Bool :=
  match items with
  | [] => (0, false)
  | _ :: _ =>
    match items.findIdx? (fun item => item.id == selectedItem.id) with
    | none => (baseRotations * 360, true)
    | some selectedIndex =>
      let anglePerItem : ℚ := 360 / items.length
      let targetAngle : ℚ := selectedIndex * anglePerItem
      let randomOffset : ℚ := (u - 1/2) * anglePerItem * (8/10)
      (baseRotations * 360 + (360 - targetAngle) + randomOffset, false)

/-- One element of the list returned by LotteryEngine.calculateProbabilities. -/
structure ProbabilityInfo where
  id : String
  text : String
  weight : ℚ
  probability : ℚ
  probabilityText : String
deriving DecidableEq, Repr

/-- Exact-arithmetic model of JavaScript toFixed(1) for non-negative numbers:
round to the nearest tenth (ties away from zero) and print one decimal digit. -/
def toFixed1 (q : ℚ) : String :=
  let n : ℤ := ⌊q * 10 + 1/2⌋
  toString (n / 10) ++ "." ++ toString (n % 10)

/-- LotteryEngine.calculateProbabilities: per entry, weight, the percentage
weight/total*100 (0 when the total is not positive), and that percentage
rendered with one decimal place and a percent sign. -/
def calculateProbabilities (items : List SlotItem) : List ProbabilityInfo :=
  match items with
  | [] => []
  | _ :: _ =>
    let total := totalWeight items
    items.map (fun item =>
      { id := item.id
        text := item.text
        weight := item.weight
        probability := if 0 < total then item.weight / total * 100 else 0
        probabilityText :=
          if 0 < total then toFixed1 (item.weight / total * 100) ++ "%" else "0%" })

/-- HistoryStorage.addRecord on an explicit stored list: unshift the new record
onto the front, then splice the list down to its first 100 elements when it
exceeds 100. -/
def addRecord (record : HistoryRecord) (records : List HistoryRecord) : List HistoryRecord :=
  let records1 := record :: records
  if 100 < records1.length then records1.take 100 else records1

/-- State of a WheelAnimationController: whether the constructor received a
non-null element, the isSpinning flag, the currentRotation angle, the pending
animation-frame id, and the rotation last written to the element style
(none when never written). -/
structure WheelState where
  hasElement : Bool
  isSpinning : Bool
  currentRotation : ℚ
  animationId : Option ℕ
  surfaceRotation : Option ℚ
deriving DecidableEq, Repr

/-- The two synchronous rejections of WheelAnimationController.spin. -/
inductive SpinError where
  | noTarget : SpinError
  | alreadySpinning : SpinError
deriving DecidableEq, Repr

/-- The synchronous part of WheelAnimationController.spin: reject with
noTarget when the element is missing, reject with alreadySpinning when a spin
is in flight, otherwise set the spinning flag and register the first
animation-frame callback (whose id is newId). -/
def spinStart (s : WheelState) (newId : ℕ) : Except SpinError Unit × WheelState :=
  if s.hasElement = false then
    (.error .noTarget, s)
  else if s.isSpinning then
    (.error .alreadySpinning, s)
  else
    (.ok (), { s with isSpinning := true, animationId := some newId })

/-- WheelAnimationController.stop: cancel the pending animation frame if any
and clear the spinning flag. -/
def stop (s : WheelState) : WheelState :=
  { s with animationId := none, isSpinning := false }

/-- The guarded element-style write this.element.style.transform = rotate(...):
records the angle on the surface when the element exists, else does nothing. -/
def applyRotation (s : WheelState) (angle : ℚ) : WheelState :=
  if s.hasElement then { s with surfaceRotation := some angle } else s

/-- WheelAnimationController.reset: stop, zero the current rotation, and
reapply the zero rotation to the element. -/
def reset (s : WheelState) : WheelState :=
  applyRotation { stop s with currentRotation := 0 } 0

/-- Sum of the weights of a pool as a plain list sum; bridges totalWeight. -/
def weightSum (items : List SlotItem) : ℚ :=
  (items.map (fun item => item.weight)).sum

/-- Running sum of the weights of the first k+1 entries of a pool. -/
def cumulativeWeight (items : List SlotItem) (k : ℕ) : ℚ :=
  ((items.take (k + 1)).map (fun item => item.weight)).sum

/-- A fixed sample entry used to instantiate proved theorems. -/
def itemA : SlotItem :=
  { id := "a", type := "text", text := "A", imageUrl := none, weight := 1, isDefault := true }

/-- A second fixed sample entry used to instantiate proved theorems. -/
def itemB : SlotItem :=
  { id := "b", type := "text", text := "B", imageUrl := none, weight := 1, isDefault := true }

/-- A third fixed sample entry used to instantiate proved theorems. -/
def itemC : SlotItem :=
  { id := "c", type := "text", text := "C", imageUrl := none, weight := 1, isDefault := false }

/-- Three further fixed sample entries, giving a six-entry equal-weight pool. -/
def itemD : SlotItem :=
  { id := "d", type := "text", text := "D", imageUrl := none, weight := 1, isDefault := false }

/-- A fifth fixed sample entry. -/
def itemE : SlotItem :=
  { id := "e", type := "text", text := "E", imageUrl := none, weight := 1, isDefault := false }

/-- A sixth fixed sample entry. -/
def itemF : SlotItem :=
  { id := "f", type := "text", text := "F", imageUrl := none, weight := 1, isDefault := false }

/-- The six-entry equal-weight sample pool of the geometry property. -/
def sixPool : List SlotItem := [itemA, itemB, itemC, itemD, itemE, itemF]

/-- A sample controller state captured mid-spin. -/
def spinningState : WheelState :=
  { hasElement := true, isSpinning := true, currentRotation := 90,
    animationId := some 7, surfaceRotation := some 90 }

/-- A sample idle controller state with a nonzero rotation left over. -/
def idleState : WheelState :=
  { hasElement := true, isSpinning := false, currentRotation := 42,
    animationId := none, surfaceRotation := some 42 }

theorem weightSum_nil : weightSum [] = 0 := rfl

theorem weightSum_cons (a : SlotItem) (rest : List SlotItem) :
    weightSum (a :: rest) = a.weight + weightSum rest := by
  simp [weightSum]

theorem cumulativeWeight_cons_zero (a : SlotItem) (rest : List SlotItem) :
    cumulativeWeight (a :: rest) 0 = a.weight := by
  simp [cumulativeWeight]

theorem cumulativeWeight_cons_succ (a : SlotItem) (rest : List SlotItem) (j : ℕ) :
    cumulativeWeight (a :: rest) (j + 1) = a.weight + cumulativeWeight rest j := by
  simp [cumulativeWeight, List.take_succ_cons]

theorem selectLoop_mem {r : ℚ} {items : List SlotItem} {it : SlotItem}
    (h : selectLoop r items = some it) : it ∈ items := by
  induction items generalizing r with
  | nil => simp [selectLoop] at h
  | cons a rest ih =>
    by_cases hle : r - a.weight ≤ 0
    · simp [selectLoop, hle] at h
      simp [h]
    · simp [selectLoop, hle] at h
      exact List.mem_cons_of_mem a (ih h)

theorem selectLoop_first_crossing :
    ∀ (items : List SlotItem) (r : ℚ), items ≠ [] → r < weightSum items →
    ∃ k, ∃ hk : k < items.length,
      selectLoop r items = some (items.get ⟨k, hk⟩) ∧
      r - cumulativeWeight items k ≤ 0 ∧
      ∀ j < k, 0 < r - cumulativeWeight items j := by
  intro items
  induction items with
  | nil => intro r hne _; exact absurd rfl hne
  | cons a rest ih =>
    intro r _ hlt
    by_cases hle : r - a.weight ≤ 0
    · refine ⟨0, Nat.succ_pos _, ?_, ?_, ?_⟩
      · simp [selectLoop, hle]
      · simpa [cumulativeWeight_cons_zero] using hle
      · intro j hj; omega
    · push_neg at hle
      rw [weightSum_cons] at hlt
      have hlt2 : r - a.weight < weightSum rest := by linarith
      have hrestpos : 0 < weightSum rest := lt_trans (by linarith) hlt2
      have hrestne : rest ≠ [] := by
        intro hnil
        rw [hnil, weightSum_nil] at hrestpos
        exact lt_irrefl 0 hrestpos
      obtain ⟨k, hk, hsel, hcross, hbefore⟩ := ih (r - a.weight) hrestne hlt2
      refine ⟨k + 1, Nat.succ_lt_succ hk, ?_, ?_, ?_⟩
      · simpa [selectLoop, not_le.mpr hle] using hsel
      · rw [cumulativeWeight_cons_succ]; linarith [hcross]
      · intro j hj
        cases j with
        | zero => rw [cumulativeWeight_cons_zero]; linarith
        | succ j =>
          rw [cumulativeWeight_cons_succ]
          have := hbefore j (Nat.lt_of_succ_lt_succ hj)
          linarith

theorem totalWeight_eq_weightSum (items : List SlotItem) :
    totalWeight items = weightSum items := by
  have h : ∀ (l : List SlotItem) (a : ℚ),
      l.foldl (fun sum item => sum + item.weight) a = a + weightSum l := by
    intro l
    induction l with
    | nil => intro a; simp [weightSum]
    | cons x xs ih =>
      intro a
      simp only [List.foldl_cons, ih, weightSum, List.map_cons, List.sum_cons]
      ring
  simpa [totalWeight] using h items 0

/-- C9: HistoryStorage.addRecord prepends the new record and truncates to the
first 100 elements: the stored list is exactly the 100-element cap of the
prepended list, its length never exceeds 100, and its head is the new record. -/
theorem addRecord_caps_at_100 (record : HistoryRecord) (records : List HistoryRecord) :
    addRecord record records = (record :: records).take 100 ∧
    (addRecord record records).length ≤ 100 ∧
    (addRecord record records).head? = some record := by
  have heq : addRecord record records = (record :: records).take 100 := by
    by_cases h : 100 < (record :: records).length
    · simp [addRecord, h]
    · push_neg at h
      have hall : (record :: records).take 100 = record :: records := List.take_of_length_le h
      simp [addRecord, Nat.not_lt.mpr h, hall]
  refine ⟨heq, ?_, ?_⟩
  · rw [heq]
    simp [List.length_take]
  · rw [heq, List.take_succ_cons]
    rfl

theorem totalWeight_pos_of_weights (items : List SlotItem) (hne : items ≠ [])
    (hw : ∀ it ∈ items, 0 < it.weight) : 0 < totalWeight items := by
  rw [totalWeight_eq_weightSum]
  apply List.sum_pos
  · intro x hx
    obtain ⟨it, hit, rfl⟩ := List.mem_map.mp hx
    exact hw it hit
  · simpa [List.map_eq_nil_iff] using hne

theorem weightedRandomSelect_ok_of_pos (u : ℚ) (items : List SlotItem)
    (hne : items ≠ []) (hpos : 0 < totalWeight items) :
    ∃ it, weightedRandomSelect u items = .ok it ∧ it ∈ items := by
  cases items with
  | nil => exact absurd rfl hne
  | cons a rest =>
    cases hsel : selectLoop (u * totalWeight (a :: rest)) (a :: rest) with
    | none =>
      refine ⟨(a :: rest).getLast (List.cons_ne_nil a rest), ?_, List.getLast_mem _⟩
      simp only [weightedRandomSelect, if_neg (not_le.mpr hpos)]
      rw [hsel]
    | some chosen =>
      refine ⟨chosen, ?_, selectLoop_mem hsel⟩
      simp only [weightedRandomSelect, if_neg (not_le.mpr hpos)]
      rw [hsel]

/-- C1: for a non-empty pool of positive total weight and a drawn random value
u * totalWeight with u in [0,1), weightedRandomSelect returns the first entry
in pool order at which the drawn value minus the running weight sum drops to
≤ 0; the selection loop itself produces that entry (the defensive last-entry
fallback after the loop is never taken for such a draw), so the result is
never missing. -/
theorem weightedRandomSelect_first_crossing (u : ℚ) (items : List SlotItem)
    (hne : items ≠ []) (hpos : 0 < totalWeight items) (h0 : 0 ≤ u) (h1 : u < 1) :
    ∃ k, ∃ hk : k < items.length,
      weightedRandomSelect u items = .ok (items.get ⟨k, hk⟩) ∧
      selectLoop (u * totalWeight items) items = some (items.get ⟨k, hk⟩) ∧
      u * totalWeight items - cumulativeWeight items k ≤ 0 ∧
      ∀ j < k, 0 < u * totalWeight items - cumulativeWeight items j := by
  have hlt : u * totalWeight items < weightSum items := by
    rw [← totalWeight_eq_weightSum]
    calc u * totalWeight items < 1 * totalWeight items := by
          exact mul_lt_mul_of_pos_right h1 hpos
      _ = totalWeight items := one_mul _
  obtain ⟨k, hk, hsel, hcross, hbefore⟩ :=
    selectLoop_first_crossing items (u * totalWeight items) hne hlt
  refine ⟨k, hk, ?_, hsel, hcross, hbefore⟩
  cases items with
  | nil => exact absurd rfl hne
  | cons a rest =>
    simp only [weightedRandomSelect, if_neg (not_le.mpr hpos)]
    rw [hsel]

/-- Witness for C1 at the pool of two unit-weight entries and u = 1/2: the
draw value is 1 and the first entry is returned by the loop. -/
theorem weightedRandomSelect_first_crossing_witness :
    ∃ k, ∃ hk : k < ([itemA, itemB] : List SlotItem).length,
      weightedRandomSelect (1/2) [itemA, itemB] = .ok (([itemA, itemB] : List SlotItem).get ⟨k, hk⟩) ∧
      selectLoop ((1/2) * totalWeight [itemA, itemB]) [itemA, itemB] =
        some (([itemA, itemB] : List SlotItem).get ⟨k, hk⟩) ∧
      (1/2) * totalWeight [itemA, itemB] - cumulativeWeight [itemA, itemB] k ≤ 0 ∧
      ∀ j < k, 0 < (1/2) * totalWeight [itemA, itemB] - cumulativeWeight [itemA, itemB] j :=
  weightedRandomSelect_first_crossing (1/2) [itemA, itemB] (by simp)
    (by norm_num [totalWeight, itemA, itemB]) (by norm_num) (by norm_num)

/-- C5: weightedRandomSelect throws exactly when the pool is empty or its
total weight is ≤ 0, and otherwise returns an entry of the pool without any
error. -/
theorem weightedRandomSelect_invalid_config (u : ℚ) (items : List SlotItem) :
    ((∃ e, weightedRandomSelect u items = .error e) ↔
      items = [] ∨ totalWeight items ≤ 0) ∧
    (items ≠ [] → 0 < totalWeight items →
      ∃ it, weightedRandomSelect u items = .ok it ∧ it ∈ items) := by
  cases items with
  | nil =>
    refine ⟨?_, ?_⟩
    · constructor
      · intro _; exact Or.inl rfl
      · intro _; exact ⟨.emptyPool, rfl⟩
    · intro hne _; exact absurd rfl hne
  | cons a rest =>
    by_cases hw : totalWeight (a :: rest) ≤ 0
    · refine ⟨?_, ?_⟩
      · constructor
        · intro _; exact Or.inr hw
        · intro _
          exact ⟨.nonPositiveTotalWeight, by simp [weightedRandomSelect, hw]⟩
      · intro _ hpos; exact absurd hw (not_le.mpr hpos)
    · have hok : ∃ it, weightedRandomSelect u (a :: rest) = .ok it ∧ it ∈ a :: rest :=
        weightedRandomSelect_ok_of_pos u (a :: rest) (List.cons_ne_nil a rest)
          (not_le.mp hw)
      refine ⟨?_, fun _ _ => hok⟩
      constructor
      · intro ⟨e, he⟩
        obtain ⟨it, hit, _⟩ := hok
        rw [hit] at he
        exact absurd he (by simp)
      · intro h
        rcases h with h | h
        · exact absurd h (by simp)
        · exact absurd h hw

/-- Witness for C5 at the two-entry unit-weight pool and u = 1/2: no error is
raised and a pool entry is returned. -/
theorem weightedRandomSelect_invalid_config_witness :
    (((∃ e, weightedRandomSelect (1/2) [itemA, itemB] = .error e) ↔
       ([itemA, itemB] : List SlotItem) = [] ∨ totalWeight [itemA, itemB] ≤ 0) ∧
     (([itemA, itemB] : List SlotItem) ≠ [] → 0 < totalWeight [itemA, itemB] →
       ∃ it, weightedRandomSelect (1/2) [itemA, itemB] = .ok it ∧ it ∈ [itemA, itemB])) ∧
    ∃ it, weightedRandomSelect (1/2) [itemA, itemB] = .ok it ∧ it ∈ [itemA, itemB] :=
  ⟨weightedRandomSelect_invalid_config (1/2) [itemA, itemB],
   (weightedRandomSelect_invalid_config (1/2) [itemA, itemB]).2 (by simp)
     (by norm_num [totalWeight, itemA, itemB])⟩

/-- C2: on a pool of positive-weight entries with pairwise distinct ids and
more entries than avoidRecentCount, antiRepeatRandomSelect returns an entry
whose id is not among the first avoidRecentCount recent result ids. -/
theorem antiRepeatRandomSelect_avoids_recent (u : ℚ) (items : List SlotItem)
    (recentResults : List String) (avoidRecentCount : ℕ)
    (hw : ∀ it ∈ items, 0 < it.weight)
    (hnodup : (items.map (fun it => it.id)).Nodup)
    (hlen : avoidRecentCount < items.length) :
    ∃ it, antiRepeatRandomSelect u items recentResults avoidRecentCount = .ok it ∧
      it.id ∉ recentResults.take avoidRecentCount := by
  cases items with
  | nil => exact absurd hlen (by simp)
  | cons a rest =>
    set recentIds := recentResults.take avoidRecentCount with hrecent
    set availableItems :=
      (a :: rest).filter (fun item => !(recentIds.contains item.id)) with havail
    have havailne : availableItems ≠ [] := by
      intro hemp
      have hall : ∀ it ∈ a :: rest, it.id ∈ recentIds := by
        intro it hit
        have := (List.filter_eq_nil_iff.mp hemp) it hit
        simpa [List.elem_iff] using this
      have hsub : ((a :: rest).map (fun it => it.id)) ⊆ recentIds := by
        intro x hx
        obtain ⟨it, hit, rfl⟩ := List.mem_map.mp hx
        exact hall it hit
      have hle : (a :: rest).length ≤ recentIds.length := by
        have := (List.subperm_of_subset hnodup hsub).length_le
        simpa using this
      have hta : recentIds.length ≤ avoidRecentCount := List.length_take_le _ _
      omega
    have havailw : ∀ it ∈ availableItems, 0 < it.weight := by
      intro it hit
      exact hw it (List.mem_filter.mp hit).1
    have hpos : 0 < totalWeight availableItems :=
      totalWeight_pos_of_weights availableItems havailne havailw
    obtain ⟨it, hit, hmem⟩ := weightedRandomSelect_ok_of_pos u availableItems havailne hpos
    have hlenpos : 0 < availableItems.length := List.length_pos.mpr havailne
    refine ⟨it, ?_, ?_⟩
    · simp only [antiRepeatRandomSelect, if_neg (not_le.mpr hlen), ← hrecent, ← havail,
        if_pos hlenpos]
      exact hit
    · have h2 := (List.mem_filter.mp hmem).2
      simpa using h2

/-- Witness for C2 at the three-entry unit-weight pool with recent ids
containing the id of the first entry and avoidRecentCount = 2. -/
theorem antiRepeatRandomSelect_avoids_recent_witness :
    ∃ it, antiRepeatRandomSelect (1/2) [itemA, itemB, itemC] ["a"] 2 = .ok it ∧
      it.id ∉ (["a"] : List String).take 2 :=
  antiRepeatRandomSelect_avoids_recent (1/2) [itemA, itemB, itemC] ["a"] 2
    (by intro it hit; fin_cases hit <;> norm_num [itemA, itemB, itemC])
    (by simp [itemA, itemB, itemC])
    (by simp)

/-- C3: invoking spin while a spin is in flight (the controller holding its
element) rejects with alreadySpinning and returns the state completely
unchanged: neither isSpinning nor currentRotation is mutated on the rejected call. -/
theorem spin_rejected_while_spinning (s : WheelState) (newId : ℕ)
    (helem : s.hasElement = true) (hspin : s.isSpinning = true) :
    spinStart s newId = (.error .alreadySpinning, s) := by
  simp [spinStart, helem, hspin]

/-- Witness for C3 at the sample mid-spin state. -/
theorem spin_rejected_while_spinning_witness :
    spinStart spinningState 3 = (.error .alreadySpinning, spinningState) :=
  spin_rejected_while_spinning spinningState 3 rfl rfl

/-- C6: from any controller state, reset yields currentRotation = 0 and
isSpinning = false, and reapplies the zero rotation to the animated surface
whenever the element exists. -/
theorem reset_zeroes_state (s : WheelState) :
    (reset s).currentRotation = 0 ∧ (reset s).isSpinning = false ∧
    (s.hasElement = true → (reset s).surfaceRotation = some 0) := by
  by_cases h : s.hasElement <;> simp [reset, applyRotation, stop, h]

/-- Witness for C6 at the sample mid-spin state, with the surface-rotation
implication discharged. -/
theorem reset_zeroes_state_witness :
    (reset spinningState).currentRotation = 0 ∧ (reset spinningState).isSpinning = false ∧
    (reset spinningState).surfaceRotation = some 0 :=
  ⟨(reset_zeroes_state spinningState).1, (reset_zeroes_state spinningState).2.1,
   (reset_zeroes_state spinningState).2.2 rfl⟩

/-- C10: stop cancels the scheduled animation tick and clears the spinning
flag while leaving currentRotation unchanged; invoked from an idle state it
changes nothing at all, and it is reset, not stop, that returns
currentRotation to 0. -/
theorem stop_cancels_preserving_rotation (s : WheelState) :
    (stop s).animationId = none ∧ (stop s).isSpinning = false ∧
    (stop s).currentRotation = s.currentRotation ∧
    (s.isSpinning = false → s.animationId = none → stop s = s) ∧
    (reset s).currentRotation = 0 := by
  refine ⟨rfl, rfl, rfl, ?_, ?_⟩
  · intro h1 h2
    cases s
    simp_all [stop]
  · by_cases h : s.hasElement <;> simp [reset, applyRotation, stop, h]

/-- Witness for C10 at the sample idle state, with the no-change implication
discharged. -/
theorem stop_cancels_preserving_rotation_witness :
    (stop idleState).animationId = none ∧ (stop idleState).isSpinning = false ∧
    (stop idleState).currentRotation = idleState.currentRotation ∧
    stop idleState = idleState ∧
    (reset idleState).currentRotation = 0 :=
  ⟨(stop_cancels_preserving_rotation idleState).1,
   (stop_cancels_preserving_rotation idleState).2.1,
   (stop_cancels_preserving_rotation idleState).2.2.1,
   (stop_cancels_preserving_rotation idleState).2.2.2.1 rfl rfl,
   (stop_cancels_preserving_rotation idleState).2.2.2.2⟩

/-- C4: when the chosen entry is found at index i of the pool,
calculateRotationAngle returns baseRotations * 360 + (360 - i * sector) plus a
jitter bounded in magnitude by 40% of one sector; in particular, for the
six-entry pool with baseRotations = 5 and index 0 the angle lies within 24
degrees of 2160. -/
theorem calculateRotationAngle_target_and_jitter (u : ℚ) (items : List SlotItem)
    (selectedItem : SlotItem) (baseRotations : ℚ) (i : ℕ)
    (h0 : 0 ≤ u) (h1 : u < 1) (hbase : 1 ≤ baseRotations)
    (hidx : items.findIdx? (fun item => item.id == selectedItem.id) = some i) :
    ∃ jitter : ℚ,
      (calculateRotationAngle u items selectedItem baseRotations).1 =
        baseRotations * 360 + (360 - (i : ℚ) * (360 / (items.length : ℚ))) + jitter ∧
      |jitter| ≤ (4 / 10) * (360 / (items.length : ℚ)) ∧
      (items.length = 6 → baseRotations = 5 → i = 0 →
        |(calculateRotationAngle u items selectedItem baseRotations).1 - 2160| ≤ 24) := by
  cases items with
  | nil => simp [List.findIdx?_nil] at hidx
  | cons a rest =>
    have hval : (calculateRotationAngle u (a :: rest) selectedItem baseRotations).1 =
        baseRotations * 360 + (360 - (i : ℚ) * (360 / ((a :: rest).length : ℚ))) +
          (u - 1/2) * (360 / ((a :: rest).length : ℚ)) * (8/10) := by
      simp [calculateRotationAngle, hidx]
    have hnpos : (0 : ℚ) < ((a :: rest).length : ℚ) := by
      exact_mod_cast Nat.succ_pos rest.length
    have hsec : (0 : ℚ) < 360 / ((a :: rest).length : ℚ) := by positivity
    have hub : (u - 1/2) * (360 / ((a :: rest).length : ℚ)) * (8/10) ≤
        (4/10) * (360 / ((a :: rest).length : ℚ)) := by
      nlinarith [mul_nonneg (le_of_lt hsec) (show (0:ℚ) ≤ 1 - u by linarith)]
    have hlb : -((4/10) * (360 / ((a :: rest).length : ℚ))) ≤
        (u - 1/2) * (360 / ((a :: rest).length : ℚ)) * (8/10) := by
      nlinarith [mul_nonneg (le_of_lt hsec) h0]
    refine ⟨(u - 1/2) * (360 / ((a :: rest).length : ℚ)) * (8/10), hval,
      abs_le.mpr ⟨hlb, hub⟩, ?_⟩
    intro hlen6 hbase5 hi0
    have hcast : ((a :: rest).length : ℚ) = 6 := by exact_mod_cast hlen6
    rw [hval, hbase5, hi0, hcast]
    rw [show (5 : ℚ) * 360 + (360 - (0 : ℕ) * (360 / 6)) +
        (u - 1/2) * (360 / 6) * (8/10) - 2160 = (u - 1/2) * 48 by push_cast; ring]
    rw [abs_le]
    constructor <;> linarith

/-- Witness for C4 at the six-entry unit-weight pool with u = 1/2,
baseRotations = 5 and the first entry chosen. -/
theorem calculateRotationAngle_target_and_jitter_witness :
    ∃ jitter : ℚ,
      (calculateRotationAngle (1/2) sixPool itemA 5).1 =
        5 * 360 + (360 - ((0 : ℕ) : ℚ) * (360 / (sixPool.length : ℚ))) + jitter ∧
      |jitter| ≤ (4 / 10) * (360 / (sixPool.length : ℚ)) ∧
      (sixPool.length = 6 → (5 : ℚ) = 5 → (0 : ℕ) = 0 →
        |(calculateRotationAngle (1/2) sixPool itemA 5).1 - 2160| ≤ 24) :=
  calculateRotationAngle_target_and_jitter (1/2) sixPool itemA 5 0
    (by norm_num) (by norm_num) (by norm_num) (by rfl)

/-- Counterexample to C7 as stated: at the empty pool the chosen id does not
occur, yet calculateRotationAngle returns 0 rather than baseRotations * 360
and logs no warning. -/
theorem calculateRotationAngle_missing_entry_counterexample :
    (∀ it ∈ ([] : List SlotItem), it.id ≠ itemA.id) ∧
    (calculateRotationAngle (1/2) [] itemA 5).1 ≠ 5 * 360 ∧
    (calculateRotationAngle (1/2) [] itemA 5).2 = false := by
  refine ⟨by simp, ?_, rfl⟩
  show (0 : ℚ) ≠ 5 * 360
  norm_num

/-- C7 amended: for a non-empty pool in which the id of the chosen entry does not
occur, calculateRotationAngle logs the warning and returns
baseRotations * 360 without throwing. -/
theorem calculateRotationAngle_missing_entry (u : ℚ) (items : List SlotItem)
    (selectedItem : SlotItem) (baseRotations : ℚ) (hne : items ≠ [])
    (habs : ∀ it ∈ items, it.id ≠ selectedItem.id) :
    calculateRotationAngle u items selectedItem baseRotations =
      (baseRotations * 360, true) := by
  cases items with
  | nil => exact absurd rfl hne
  | cons a rest =>
    have hnone : (a :: rest).findIdx? (fun item => item.id == selectedItem.id) = none := by
      rw [List.findIdx?_eq_none_iff]
      intro it hit
      simpa using habs it hit
    simp [calculateRotationAngle, hnone]

/-- Witness for the amended C7 at the one-entry pool not containing the
chosen id. -/
theorem calculateRotationAngle_missing_entry_witness :
    calculateRotationAngle (1/2) [itemB] itemA 5 = ((5 : ℚ) * 360, true) :=
  calculateRotationAngle_missing_entry (1/2) [itemB] itemA 5 (by simp)
    (by intro it hit; fin_cases hit; simp [itemA, itemB])

/-- C8: for a non-empty pool of positive total weight, each returned
probability is the weight of the entry over the total expressed as a percentage,
the probabilities sum to exactly 100, and each probabilityText is that
percentage rounded to one decimal place followed by a percent sign. -/
theorem calculateProbabilities_sum_100 (items : List SlotItem) (hne : items ≠ [])
    (hpos : 0 < totalWeight items) :
    ((calculateProbabilities items).map (fun p => p.probability)).sum = 100 ∧
    ∀ p ∈ calculateProbabilities items,
      p.probability = p.weight / totalWeight items * 100 ∧
      p.probabilityText = toFixed1 p.probability ++ "%" := by
  have hsum : ∀ l : List SlotItem,
      ((l.map (fun it => it.weight / totalWeight items * 100)).sum) =
        weightSum l / totalWeight items * 100 := by
    intro l
    induction l with
    | nil => simp [weightSum]
    | cons x xs ih =>
      simp only [List.map_cons, List.sum_cons, ih, weightSum_cons]
      ring
  cases items with
  | nil => exact absurd rfl hne
  | cons a rest =>
    have hmap : calculateProbabilities (a :: rest) =
        (a :: rest).map (fun item =>
          { id := item.id, text := item.text, weight := item.weight,
            probability := item.weight / totalWeight (a :: rest) * 100,
            probabilityText :=
              toFixed1 (item.weight / totalWeight (a :: rest) * 100) ++ "%" }) := by
      simp only [calculateProbabilities, if_pos hpos]
    constructor
    · rw [hmap, List.map_map]
      have : ((a :: rest).map (fun it => it.weight / totalWeight (a :: rest) * 100)).sum =
          weightSum (a :: rest) / totalWeight (a :: rest) * 100 := hsum (a :: rest)
      simp only [Function.comp] at this ⊢
      rw [show ((fun p : ProbabilityInfo => p.probability) ∘ (fun item : SlotItem =>
          ({ id := item.id, text := item.text, weight := item.weight,
             probability := item.weight / totalWeight (a :: rest) * 100,
             probabilityText :=
               toFixed1 (item.weight / totalWeight (a :: rest) * 100) ++ "%" }
             : ProbabilityInfo))) =
          (fun it : SlotItem => it.weight / totalWeight (a :: rest) * 100) from rfl]
      rw [this, ← totalWeight_eq_weightSum]
      field_simp
    · intro p hp
      rw [hmap] at hp
      obtain ⟨it, _, rfl⟩ := List.mem_map.mp hp
      exact ⟨rfl, rfl⟩

/-- Witness for C8 at the two-entry unit-weight pool. -/
theorem calculateProbabilities_sum_100_witness :
    ((calculateProbabilities [itemA, itemB]).map (fun p => p.probability)).sum = 100 ∧
    ∀ p ∈ calculateProbabilities [itemA, itemB],
      p.probability = p.weight / totalWeight [itemA, itemB] * 100 ∧
      p.probabilityText = toFixed1 p.probability ++ "%" :=
  calculateProbabilities_sum_100 [itemA, itemB] (by simp)
    (by norm_num [totalWeight, itemA, itemB])

end Roll
